import Mathlib

/-!
Shallow embedding of the `custom_routing_in_go` repository: a progression of
small HTTP servers culminating in a hand-rolled regular-expression router.

The embedding covers:
* the observable state of Go's `http.ResponseWriter` (headers, status, body)
  together with a trace of the calls a handler makes against it, so that the
  ordering of header/status/body operations is provable;
* a matcher for the subset of Go regular-expression syntax that the
  repository's route patterns use (literal characters, `^` / `$` anchors, and
  a capturing group over a bracket character class with `+`), with Go's
  leftmost unanchored search semantics (`regexp.FindStringSubmatch`);
* `regexp.MustCompile` as a fallible compiler from pattern strings, so that a
  malformed pattern fails at registration time;
* the router itself (`App` / `NewApp` / `App.Handle` / `App.ServeHTTP`,
  `Response.Text`), the `ServeMux` prefix-routing example from
  `02_serve_mux.go`, and the constant handler from `04_custom_handler.go`.
-/

/-- One call a handler makes against the HTTP response writer.  The trace of
these calls records the order in which header, status and body operations
happen. -/
inductive WriteEvent where
  | setHeader (key value : String)
  | writeHeader (code : Nat)
  | write (s : String)
deriving DecidableEq

/-- Observable state of Go's `http.ResponseWriter`: the response headers, the
committed status code (the first `WriteHeader` call wins; later calls are
superfluous and ignored, per `net/http` semantics), the accumulated body, and
the trace of calls made so far. -/
structure ResponseWriter where
  headers : List (String × String)
  status : Option Nat
  body : String
  events : List WriteEvent
deriving DecidableEq

namespace ResponseWriter

/-- `w.Header().Set(key, value)`: replace any existing value for `key`, else
append the pair. -/
def setHeader (w : ResponseWriter) (key value : String) : ResponseWriter :=
  { w with
    headers :=
      if w.headers.any (fun p => p.1 = key) then
        w.headers.map (fun p => if p.1 = key then (key, value) else p)
      else
        w.headers ++ [(key, value)],
    events := w.events ++ [WriteEvent.setHeader key value] }

/-- `w.WriteHeader(code)`: commit the status code; a second call is ignored
(`net/http` logs "superfluous WriteHeader" and keeps the first status). -/
def writeHeader (w : ResponseWriter) (code : Nat) : ResponseWriter :=
  { w with
    status := match w.status with
      | some s => some s
      | none => some code,
    events := w.events ++ [WriteEvent.writeHeader code] }

/-- `io.WriteString(w, s)`: append to the body; an implicit `WriteHeader(200)`
happens first if no status was committed yet (`net/http` semantics). -/
def write (w : ResponseWriter) (s : String) : ResponseWriter :=
  { w with
    status := match w.status with
      | some c => some c
      | none => some 200,
    body := w.body ++ s,
    events := w.events ++ [WriteEvent.write s] }

end ResponseWriter

/-- A freshly created response writer, as handed to a handler by the HTTP
server: no headers set, no status committed, empty body. -/
def emptyWriter : ResponseWriter :=
  { headers := [], status := none, body := "", events := [] }

/-- The incoming `*http.Request`, reduced to the fields the repository's
handlers read: `r.URL.Path` and (never actually read, kept so that requests
are more than a bare path) `r.Method`. -/
structure HttpRequest where
  path : String
  method : String
deriving DecidableEq

/-! ### The regular-expression matcher

The route patterns occurring in the repository are `^/hello$` and
`/hello/([\w\._-]+)$`.  We embed the fragment of Go regexp syntax they use:
a pattern is an optional `^` anchor, a sequence of literal characters and
capturing groups `([...]+)` over a bracket character class, and an optional
final `$` anchor.  Matching follows `regexp.FindStringSubmatch`: the search
is unanchored (try each start position from the left, leftmost success wins)
and a `+` over a character class is greedy.  Because every group in these
patterns is a class `+` immediately followed by the `$` anchor, greedy
matching never needs to backtrack, so consuming the maximal run of class
characters is exact. -/

/-- One element of a compiled pattern: a literal character, or a capturing
group `([...]+)` over the character class `cls`. -/
inductive RegexItem where
  | lit (c : Char)
  | plusGroup (cls : Char → Bool)

/-- A compiled pattern: optional `^` anchor, the item sequence, optional `$`
anchor. -/
structure Regexp where
  anchorStart : Bool
  items : List RegexItem
  anchorEnd : Bool

/-- Match an item sequence at the start of `s`.  Returns the consumed
characters, the captured group substrings in left-to-right order of group
definition, and the unconsumed remainder. -/
def matchItems : List RegexItem → List Char →
    Option (List Char × List (List Char) × List Char)
  | [], s => some ([], [], s)
  | RegexItem.lit _ :: _, [] =>
    none
  | RegexItem.lit c :: rest, d :: s =>
    if d = c then
      (matchItems rest s).map (fun r => (c :: r.1, r.2.1, r.2.2))
    else
      none
  | RegexItem.plusGroup cls :: rest, s =>
    let run := s.takeWhile cls
    let s' := s.dropWhile cls
    if run = [] then
      none
    else
      (matchItems rest s').map (fun r => (run ++ r.1, run :: r.2.1, r.2.2))

/-- Match the whole pattern at the current position: the items must match
here, and if the pattern ends in `$` the remainder must be empty. -/
def matchHere (re : Regexp) (s : List Char) : Option (List Char × List (List Char)) :=
  match matchItems re.items s with
  | none => none
  | some (con, gs, rest) =>
    if re.anchorEnd && !rest.isEmpty then none else some (con, gs)

/-- Unanchored leftmost search: try the match at each start position from the
left; a `^`-anchored pattern is only tried at the first position. -/
def findFrom (re : Regexp) : List Char → Option (List Char × List (List Char))
  | [] => matchHere re []
  | c :: s =>
    match matchHere re (c :: s) with
    | some r => some r
    | none => if re.anchorStart then none else findFrom re s

/-- `re.FindStringSubmatch(s)`: `[]` when there is no match (Go returns
`nil`), otherwise the whole matched substring followed by the text of each
capturing group in order of group definition. -/
def Regexp.FindStringSubmatch (re : Regexp) (s : String) : List String :=
  match findFrom re s.data with
  | none => []
  | some (con, gs) => String.mk con :: gs.map String.mk

/-! ### Pattern compilation (`regexp.MustCompile`)

A small recursive-descent parser for the syntax fragment above.  Anything
outside the fragment — in particular every pattern that is malformed for Go's
`regexp` package, such as an unclosed group `(` or class `[`, a trailing
backslash, or a dangling `+` — fails to compile.  `regexp.MustCompile` panics
on a compilation error, which the embedding renders as `Option.none`. -/

/-- Go's `\w` character class: `[0-9A-Za-z_]`. -/
def isWordChar (c : Char) : Bool :=
  ('0' ≤ c && c ≤ '9') ||
  ('A' ≤ c && c ≤ 'Z') ||
  ('a' ≤ c && c ≤ 'z') ||
  c = '_'

/-- Parse the body of a bracket character class after `[`, up to the closing
`]`: plain characters, `\w`, and escaped literal characters (`\.`).  Returns
the class predicate and the unparsed remainder; `none` when the class is
unclosed or ends in a bare backslash. -/
def parseClsBody : List Char → (Char → Bool) → Option ((Char → Bool) × List Char)
  | [], _ => none
  | ']' :: rest, acc => some (acc, rest)
  | '\\' :: c :: rest, acc =>
    if c = 'w' then
      parseClsBody rest (fun d => acc d || isWordChar d)
    else
      parseClsBody rest (fun d => acc d || d = c)
  | ['\\'], _ => none
  | c :: rest, acc => parseClsBody rest (fun d => acc d || d = c)

/-- Parse an item sequence up to the end of the pattern, returning the items
and whether the pattern ends with the `$` anchor.  `fuel` bounds recursion
depth; `compile` supplies more fuel than the input length, which is always
enough because every step consumes at least one character. -/
def parseSeq : Nat → List Char → Option (List RegexItem × Bool)
  | 0, _ => none
  | _ + 1, [] => some ([], false)
  | _ + 1, ['$'] => some ([], true)
  | fuel + 1, '(' :: rest =>
    match rest with
    | '[' :: rest1 =>
      match parseClsBody rest1 (fun _ => false) with
      | some (cls, '+' :: ')' :: rest2) =>
        (parseSeq fuel rest2).map (fun r => (RegexItem.plusGroup cls :: r.1, r.2))
      | _ => none
    | _ => none
  | _ + 1, ')' :: _ => none
  | _ + 1, '+' :: _ => none
  | _ + 1, '[' :: _ => none
  | fuel + 1, '\\' :: c :: rest =>
    if isWordChar c then
      none
    else
      (parseSeq fuel rest).map (fun r => (RegexItem.lit c :: r.1, r.2))
  | _ + 1, ['\\'] => none
  | fuel + 1, c :: rest =>
    (parseSeq fuel rest).map (fun r => (RegexItem.lit c :: r.1, r.2))

/-- `regexp.Compile` on the embedded syntax fragment: strip a leading `^`
anchor, then parse the item sequence and trailing `$` anchor.  `none` models
the compilation error on which `regexp.MustCompile` panics. -/
def compile (pattern : String) : Option Regexp :=
  let cs := pattern.data
  let anchored := match cs with
    | '^' :: _ => true
    | _ => false
  let cs' := match cs with
    | '^' :: t => t
    | l => l
  (parseSeq (cs'.length + 1) cs').map
    (fun r => { anchorStart := anchored, items := r.1, anchorEnd := r.2 })

/-! ### The router (final stage of the walkthrough) -/

/-- The router's `Request` struct: the embedded `*http.Request` plus the
`Params` capture slice (`nil`, i.e. `[]`, until a matching route with capture
groups sets it).  The later `Context` struct carries exactly the same data
(plus the response writer, which the embedding passes separately), so this
one type models both. -/
structure Request where
  request : HttpRequest
  Params : List String

/-- `type Handler func(*Response, *Request)`: a handler reads the request and
transforms the response writer. -/
abbrev Handler := Request → ResponseWriter → ResponseWriter

/-- `type Route struct { Pattern *regexp.Regexp; Handler Handler }`. -/
structure Route where
  Pattern : Regexp
  Handler : Handler

/-- `type App struct { Routes []Route; DefaultRoute Handler }`. -/
structure App where
  Routes : List Route
  DefaultRoute : Handler

/-- `Response.Text` (and, identically, `Context.Text`): set the plain-text
content type, write the status line, then write the body followed by a single
newline (`fmt.Sprintf("%s\n", body)`). -/
def Response.Text (w : ResponseWriter) (code : Nat) (body : String) : ResponseWriter :=
  ((w.setHeader "Content-Type" "text/plain").writeHeader code).write (body ++ "\n")

/-- `NewApp()`: no routes, and a default route answering
`404 "Not found"`. -/
def NewApp : App :=
  { Routes := [],
    DefaultRoute := fun _ resp => Response.Text resp 404 "Not found" }

/-- `App.Handle(pattern, handler)`: compile the pattern with
`regexp.MustCompile` (panic, i.e. `none`, on a malformed pattern — a
registration-time failure) and append the new route to the end of
`a.Routes`. -/
def App.Handle (a : App) (pattern : String) (handler : Handler) : Option App :=
  match compile pattern with
  | none => none
  | some re =>
    some { a with Routes := a.Routes ++ [{ Pattern := re, Handler := handler }] }

/-- The loop body of `App.ServeHTTP`: scan the routes in order; at the first
route whose `FindStringSubmatch` is non-empty, set `Params` to `matches[1:]`
when there are capture groups (leaving it `nil` otherwise) and invoke that
route's handler, returning immediately; if the loop exhausts the list, invoke
the default route with the untouched empty `Params`. -/
def serveRoutes (dflt : Handler) (r : HttpRequest) (w : ResponseWriter) :
    List Route → ResponseWriter
  | [] => dflt { request := r, Params := [] } w
  | rt :: rest =>
    let ms := rt.Pattern.FindStringSubmatch r.path
    if ms.length > 0 then
      rt.Handler { request := r, Params := if ms.length > 1 then ms.drop 1 else [] } w
    else
      serveRoutes dflt r w rest

/-- `App.ServeHTTP(w, r)` (both the `Request`/`Response` version and the
`Context` version, whose bodies differ only in how the context is packaged). -/
def App.ServeHTTP (a : App) (r : HttpRequest) (w : ResponseWriter) : ResponseWriter :=
  serveRoutes a.DefaultRoute r w a.Routes

/-- State-passing form of the same dispatch: the Go method has the receiver
`a *App`, so the embedding threads the `App` through explicitly.  The method
body only ever reads `a.Routes` and `a.DefaultRoute` — it contains no
assignment to either field — so each branch returns the receiver it was
given. -/
def serveRoutesSt (a : App) (r : HttpRequest) (w : ResponseWriter) :
    List Route → App × ResponseWriter
  | [] => (a, a.DefaultRoute { request := r, Params := [] } w)
  | rt :: rest =>
    let ms := rt.Pattern.FindStringSubmatch r.path
    if ms.length > 0 then
      (a, rt.Handler { request := r, Params := if ms.length > 1 then ms.drop 1 else [] } w)
    else
      serveRoutesSt a r w rest

/-- `App.ServeHTTP` with the receiver state threaded explicitly. -/
def App.ServeHTTPSt (a : App) (r : HttpRequest) (w : ResponseWriter) :
    App × ResponseWriter :=
  serveRoutesSt a r w a.Routes

/-! ### The demonstrated route table (`main` of the router stages) -/

/-- The handler registered for `^/hello$`:
`resp.Text(http.StatusOK, "Hello world")`. -/
def helloWorldHandler : Handler :=
  fun _ resp => Response.Text resp 200 "Hello world"

/-- The handler registered for `/hello/([\w\._-]+)$`:
`resp.Text(http.StatusOK, fmt.Sprintf("Hello %s", req.Params[0]))`. -/
def helloNameHandler : Handler :=
  fun req resp => Response.Text resp 200 ("Hello " ++ req.Params.getD 0 "")

/-- The second route pattern of `main`, `/hello/([\w\._-]+)$`, as a Lean
string literal. -/
def helloNamePatternStr : String :=
  "/hello/([\\w\\._-]+)$"

/-- The `App` that `main` builds: `NewApp()` followed by the two `Handle`
registrations, in order. -/
def demoApp : App :=
  ((NewApp.Handle "^/hello$" helloWorldHandler).bind
    (fun a => a.Handle helloNamePatternStr helloNameHandler)).getD NewApp

/-! ### The `ServeMux` stage (`02_serve_mux.go`)

Go's `http.ServeMux` matches a registered pattern ending in `/` against any
path having it as a prefix, and any other pattern against the exact path
only; among the patterns that match, the longest wins.  (Path cleaning and
the trailing-slash redirect do not arise for the already-clean paths
considered here.) -/

/-- A `ServeMux` handler: reads the request and transforms the writer. -/
abbrev MuxHandler := HttpRequest → ResponseWriter → ResponseWriter

/-- Is `pat` a prefix of `s` (character by character)? -/
def startsWith : List Char → List Char → Bool
  | _, [] => true
  | [], _ :: _ => false
  | c :: s, p :: ps => c = p && startsWith s ps

/-- Does the registered pattern match the request path?  Patterns ending in
`/` match every path they prefix; other patterns match exactly. -/
def muxMatch (pattern path : String) : Bool :=
  if pattern.data.getLast? = some '/' then
    startsWith path.data pattern.data
  else
    path = pattern

/-- The longest registered pattern matching `path`, with its handler. -/
def muxBest (path : String) : List (String × MuxHandler) → Option (String × MuxHandler)
  | [] => none
  | (p, h) :: rest =>
    match muxBest path rest with
    | none => if muxMatch p path then some (p, h) else none
    | some (p', h') =>
      if muxMatch p path && p.length > p'.length then some (p, h) else some (p', h')

/-- `ServeMux` dispatch over a registration table; when nothing matches, the
mux's built-in handler answers `404 "404 page not found\n"` (never reached
here, because the `/` pattern matches every path). -/
def serveMux (table : List (String × MuxHandler)) (r : HttpRequest)
    (w : ResponseWriter) : ResponseWriter :=
  match muxBest r.path table with
  | some (_, h) => h r w
  | none => (w.writeHeader 404).write "404 page not found\n"

/-- `strings.Replace(s, old, new, 1)`: replace the first occurrence of `old`
in `s` by `new` (with Go's convention that an empty `old` matches at the
start). -/
def replaceFirst (s old new : List Char) : List Char :=
  match old with
  | [] => new ++ s
  | _ :: _ => go s
where
  /-- Scan for the first occurrence of `old`. -/
  go : List Char → List Char
    | [] => []
    | c :: t =>
      if startsWith (c :: t) old then
        new ++ (c :: t).drop old.length
      else
        c :: go t

/-- `strings.Replace` on `String`s, restricted to `n = 1` as used in the
source. -/
def stringsReplace1 (s old new : String) : String :=
  String.mk (replaceFirst s.data old.data new.data)

/-- The `/hello/` handler of `02_serve_mux.go`: strip the first occurrence of
`/hello/` from the path, then write a plain-text `200` response
`Hello <name>\n`. -/
def helloSlashMuxHandler : MuxHandler :=
  fun r w =>
    let name := stringsReplace1 r.path "/hello/" ""
    (((w.setHeader "Content-Type" "text/plain").writeHeader 200).write
      ("Hello " ++ name ++ "\n"))

/-- The `/hello` handler of `02_serve_mux.go`: plain-text `200`
`Hello world\n`. -/
def helloMuxHandler : MuxHandler :=
  fun _ w =>
    ((w.setHeader "Content-Type" "text/plain").writeHeader 200).write "Hello world\n"

/-- The `/` handler of `02_serve_mux.go`: plain-text `404` `Not found\n`. -/
def rootMuxHandler : MuxHandler :=
  fun _ w =>
    ((w.setHeader "Content-Type" "text/plain").writeHeader 404).write "Not found\n"

/-- The registration table `main` builds in `02_serve_mux.go`, in
registration order. -/
def serveMuxTable : List (String × MuxHandler) :=
  [("/hello/", helloSlashMuxHandler),
   ("/hello", helloMuxHandler),
   ("/", rootMuxHandler)]

/-! ### The custom handler stage (`04_custom_handler.go`) -/

/-- `App.ServeHTTP` of `04_custom_handler.go`: the `App` struct there is
empty and the method ignores the request entirely, always writing a
plain-text `200` response `Hello world\n`. -/
def customHandlerServeHTTP (_ : HttpRequest) (w : ResponseWriter) : ResponseWriter :=
  ((w.setHeader "Content-Type" "text/plain").writeHeader 200).write "Hello world\n"

/-! ### Auxiliary definitions used by the verification -/

/-- Number of capturing groups in a compiled item sequence. -/
def countGroups : List RegexItem → Nat
  | [] => 0
  | RegexItem.lit _ :: t => countGroups t
  | RegexItem.plusGroup _ :: t => 1 + countGroups t

/-- Inert route used only as the default argument of `List.getD` below. -/
def fallbackRoute : Route :=
  { Pattern := ⟨false, [], false⟩, Handler := fun _ w => w }

/-- The first route `main` registers (`^/hello$`). -/
def demoRoute0 : Route := demoApp.Routes.getD 0 fallbackRoute

/-- The second route `main` registers (`/hello/([\w\._-]+)$`). -/
def demoRoute1 : Route := demoApp.Routes.getD 1 fallbackRoute

/-- An `App` built from `NewApp` with a single registered route, used to
exercise the no-route-matches path. -/
def c2App : App := (NewApp.Handle "^/hello$" helloWorldHandler).getD NewApp

/-! ### Helper lemmas about dispatch and matching -/


/-- The `Params` assignment of the dispatch loop (`matches[1:]` only when
`len(matches) > 1`) always equals dropping the whole-match entry. -/
theorem params_ite_eq_drop (ms : List String) :
    (if ms.length > 1 then ms.drop 1 else []) = ms.drop 1 := by
  match ms with
  | [] => rfl
  | [a] => rfl
  | a :: b :: t => simp [List.length]

/-- First-match-wins over the route list: if route `i` matches and no earlier
route does, the scan invokes exactly route `i`'s handler, with `Params` set to
the capture submatches. -/
theorem serveRoutes_first (dflt : Handler) (r : HttpRequest) (w : ResponseWriter) :
    ∀ (rts : List Route) (i : Nat) (hi : i < rts.length),
      0 < ((rts.get ⟨i, hi⟩).Pattern.FindStringSubmatch r.path).length →
      (∀ (j : Nat) (hj : j < rts.length), j < i →
        (rts.get ⟨j, hj⟩).Pattern.FindStringSubmatch r.path = []) →
      serveRoutes dflt r w rts =
        (rts.get ⟨i, hi⟩).Handler
          { request := r,
            Params := ((rts.get ⟨i, hi⟩).Pattern.FindStringSubmatch r.path).drop 1 } w := by
  intro rts
  induction rts with
  | nil => intro i hi; exact absurd hi (Nat.not_lt_zero i)
  | cons rt rest ih =>
    intro i hi hmatch hprev
    match i with
    | 0 =>
      simp only [List.get] at hmatch ⊢
      simp only [serveRoutes]
      rw [if_pos hmatch, params_ite_eq_drop]
    | Nat.succ i =>
      have h0 : rt.Pattern.FindStringSubmatch r.path = [] := by
        have := hprev 0 (Nat.succ_pos _) (Nat.succ_pos i)
        simpa using this
      simp only [serveRoutes, h0]
      simp only [List.length_nil, gt_iff_lt, Nat.lt_irrefl, if_false]
      have := ih i (Nat.lt_of_succ_lt_succ hi)
        (by simpa using hmatch)
        (fun j hj hji => by
          have := hprev (j + 1) (Nat.succ_lt_succ hj) (Nat.succ_lt_succ hji)
          simpa using this)
      simpa using this

/-- When no route in the list matches, the scan falls through to the default
handler with empty `Params`. -/
theorem serveRoutes_no_match (dflt : Handler) (r : HttpRequest) (w : ResponseWriter) :
    ∀ (rts : List Route),
      (∀ rt ∈ rts, rt.Pattern.FindStringSubmatch r.path = []) →
      serveRoutes dflt r w rts = dflt { request := r, Params := [] } w := by
  intro rts
  induction rts with
  | nil => intro _; rfl
  | cons rt rest ih =>
    intro h
    have h0 := h rt (List.mem_cons_self rt rest)
    simp only [serveRoutes, h0, List.length_nil, gt_iff_lt, Nat.lt_irrefl, if_false]
    exact ih (fun rt' hrt' => h rt' (List.mem_cons_of_mem rt hrt'))

/-- The state-threaded scan returns the receiver `App` unchanged. -/
theorem serveRoutesSt_fst (a : App) (r : HttpRequest) (w : ResponseWriter) :
    ∀ (rts : List Route), (serveRoutesSt a r w rts).1 = a := by
  intro rts
  induction rts with
  | nil => rfl
  | cons rt rest ih =>
    simp only [serveRoutesSt]
    by_cases h : (rt.Pattern.FindStringSubmatch r.path).length > 0
    · rw [if_pos h]
    · rw [if_neg h]; exact ih

/-- `App.ServeHTTPSt` returns the receiver `App` unchanged. -/
theorem ServeHTTPSt_fst (a : App) (r : HttpRequest) (w : ResponseWriter) :
    (a.ServeHTTPSt r w).1 = a :=
  serveRoutesSt_fst a r w a.Routes

/-- A successful item-sequence match produces exactly one capture per
capturing group. -/
theorem matchItems_groups_length :
    ∀ (its : List RegexItem) (s con : List Char) (gs : List (List Char)) (rest : List Char),
      matchItems its s = some (con, gs, rest) → gs.length = countGroups its := by
  intro its
  induction its with
  | nil =>
    intro s con gs rest h
    simp only [matchItems, Option.some.injEq, Prod.mk.injEq] at h
    obtain ⟨-, hgs, -⟩ := h
    simp [← hgs, countGroups]
  | cons it rest' ih =>
    intro s con gs rest h
    match it with
    | RegexItem.lit c =>
      match s with
      | [] => exact Option.noConfusion (by simpa only [matchItems] using h)
      | d :: s' =>
        simp only [matchItems] at h
        by_cases hdc : d = c
        · rw [if_pos hdc] at h
          obtain ⟨⟨c1, g1, r1⟩, hr, heq⟩ := Option.map_eq_some'.mp h
          simp only [Prod.mk.injEq] at heq
          obtain ⟨-, hgs, -⟩ := heq
          subst hgs
          simpa [countGroups] using ih s' c1 g1 r1 hr
        · rw [if_neg hdc] at h; cases h
    | RegexItem.plusGroup cls =>
      simp only [matchItems] at h
      by_cases hrun : s.takeWhile cls = []
      · rw [if_pos hrun] at h; cases h
      · rw [if_neg hrun] at h
        obtain ⟨⟨c1, g1, r1⟩, hr, heq⟩ := Option.map_eq_some'.mp h
        simp only [Prod.mk.injEq] at heq
        obtain ⟨-, hgs, -⟩ := heq
        subst hgs
        have := ih (s.dropWhile cls) c1 g1 r1 hr
        simp only [List.length_cons, countGroups]
        omega

/-- A successful anchored-position match produces exactly one capture per
capturing group. -/
theorem matchHere_groups (re : Regexp) (s con : List Char) (gs : List (List Char)) :
    matchHere re s = some (con, gs) → gs.length = countGroups re.items := by
  intro h
  unfold matchHere at h
  cases hmi : matchItems re.items s with
  | none => rw [hmi] at h; cases h
  | some r =>
    obtain ⟨c0, g0, r0⟩ := r
    rw [hmi] at h
    have h2 : (if (re.anchorEnd && !r0.isEmpty) = true then none
        else some (c0, g0)) = some (con, gs) := h
    by_cases hcond : (re.anchorEnd && !r0.isEmpty) = true
    · rw [if_pos hcond] at h2; exact Option.noConfusion h2
    · rw [if_neg hcond] at h2
      injection h2 with h'
      injection h' with h1 h2
      subst h2
      exact matchItems_groups_length re.items s c0 g0 r0 hmi

/-- A successful unanchored search produces exactly one capture per capturing
group. -/
theorem findFrom_groups (re : Regexp) :
    ∀ (s con : List Char) (gs : List (List Char)),
      findFrom re s = some (con, gs) → gs.length = countGroups re.items := by
  intro s
  induction s with
  | nil => intro con gs h; exact matchHere_groups re [] con gs h
  | cons c s' ih =>
    intro con gs h
    simp only [findFrom] at h
    cases hmh : matchHere re (c :: s') with
    | some r =>
      obtain ⟨c1, g1⟩ := r
      rw [hmh] at h
      simp only [Option.some.injEq, Prod.mk.injEq] at h
      obtain ⟨-, hgs⟩ := h
      subst hgs
      exact matchHere_groups re (c :: s') c1 g1 hmh
    | none =>
      rw [hmh] at h
      by_cases ha : re.anchorStart
      · simp only [ha, if_true] at h; cases h
      · simp only [ha, if_false] at h
        exact ih con gs h

/-- On a successful match, `FindStringSubmatch` returns exactly one submatch
entry per capturing group after the whole-match entry. -/
theorem FindStringSubmatch_drop_length (re : Regexp) (s : String) :
    0 < (re.FindStringSubmatch s).length →
    ((re.FindStringSubmatch s).drop 1).length = countGroups re.items := by
  unfold Regexp.FindStringSubmatch
  cases hf : findFrom re s.data with
  | none => intro h; exact absurd h (by decide)
  | some r =>
    obtain ⟨c1, g1⟩ := r
    intro _
    show (List.drop 1 (String.mk c1 :: g1.map String.mk)).length = countGroups re.items
    simpa using findFrom_groups re s.data c1 g1 hf

/-- For a pattern of literals followed by one `([...]+)` group, the item
sequence matches `lits ++ name` exactly, capturing `name`, whenever `name` is
a non-empty run of class characters. -/
theorem matchItems_lits_plus (cls : Char → Bool) :
    ∀ (lits name : List Char), name ≠ [] → (∀ c ∈ name, cls c = true) →
      matchItems (lits.map RegexItem.lit ++ [RegexItem.plusGroup cls]) (lits ++ name) =
        some (lits ++ name, [name], []) := by
  intro lits
  induction lits with
  | nil =>
    intro name hne hcls
    have htake : name.takeWhile cls = name := List.takeWhile_eq_self_iff.mpr hcls
    have hdrop : name.dropWhile cls = [] := List.dropWhile_eq_nil_iff.mpr hcls
    simp only [List.map_nil, List.nil_append, matchItems, htake, hdrop]
    rw [if_neg hne]
    simp [matchItems]
  | cons c t ih =>
    intro name hne hcls
    simp only [List.map_cons, List.cons_append, matchItems, if_true, List.append_eq]
    rw [ih name hne hcls]
    rfl

/-- Position-0 match of a `lits ++ ([...]+)$` pattern against `lits ++ name`:
the whole string is consumed and `name` is the single capture. -/
theorem matchHere_lits_plus (b : Bool) (cls : Char → Bool) (lits name : List Char)
    (hne : name ≠ []) (hcls : ∀ c ∈ name, cls c = true) :
    matchHere ⟨b, lits.map RegexItem.lit ++ [RegexItem.plusGroup cls], true⟩ (lits ++ name) =
      some (lits ++ name, [name]) := by
  simp [matchHere, matchItems_lits_plus cls lits name hne hcls]

/-- The unanchored search returns the position-0 match when one exists. -/
theorem findFrom_of_matchHere (re : Regexp) (s : List Char)
    (p : List Char × List (List Char)) (h : matchHere re s = some p) :
    findFrom re s = some p := by
  cases s with
  | nil => simpa [findFrom] using h
  | cons c t => simp [findFrom, h]

/-- `FindStringSubmatch` of a `lits ++ ([...]+)$` pattern on `lits ++ name`:
the whole match is the whole string and the single capture is `name`. -/
theorem FindStringSubmatch_lits_plus (b : Bool) (cls : Char → Bool) (lits name : List Char)
    (hne : name ≠ []) (hcls : ∀ c ∈ name, cls c = true) :
    Regexp.FindStringSubmatch
        ⟨b, lits.map RegexItem.lit ++ [RegexItem.plusGroup cls], true⟩
        (String.mk (lits ++ name)) =
      [String.mk (lits ++ name), String.mk name] := by
  unfold Regexp.FindStringSubmatch
  rw [show (String.mk (lits ++ name)).data = lits ++ name from rfl,
    findFrom_of_matchHere _ _ _ (matchHere_lits_plus b cls lits name hne hcls)]
  rfl


/-- Appending to the empty string is the identity. -/
theorem emptyStr_append (s : String) : "" ++ s = s := by
  apply String.ext
  simp [String.data_append]

/-- Claim C1: dispatch has first-match-wins semantics.  If the request path
matches route `i`'s pattern and no route `j < i`, `App.ServeHTTP` produces
exactly the response of route `i`'s handler (so no other handler runs), and
when no route matches it produces exactly the default handler's response —
exactly one handler runs per request. -/
theorem first_match_wins (a : App) (r : HttpRequest) (w : ResponseWriter) :
    (∀ (i : Nat) (hi : i < a.Routes.length),
      0 < ((a.Routes.get ⟨i, hi⟩).Pattern.FindStringSubmatch r.path).length →
      (∀ (j : Nat) (hj : j < a.Routes.length), j < i →
        (a.Routes.get ⟨j, hj⟩).Pattern.FindStringSubmatch r.path = []) →
      a.ServeHTTP r w =
        (a.Routes.get ⟨i, hi⟩).Handler
          { request := r,
            Params := ((a.Routes.get ⟨i, hi⟩).Pattern.FindStringSubmatch r.path).drop 1 } w)
    ∧ ((∀ rt ∈ a.Routes, rt.Pattern.FindStringSubmatch r.path = []) →
      a.ServeHTTP r w = a.DefaultRoute { request := r, Params := [] } w) := by
  constructor
  · intro i hi hm hp
    exact serveRoutes_first a.DefaultRoute r w a.Routes i hi hm hp
  · intro h
    exact serveRoutes_no_match a.DefaultRoute r w a.Routes h

/-- Witness for C1 at the demonstrated route table and path
`/hello/Patrick`, which matches route 1 and not route 0. -/
theorem first_match_wins_witness :
    demoApp.ServeHTTP { path := "/hello/Patrick", method := "GET" } emptyWriter =
      (demoApp.Routes.get ⟨1, by decide⟩).Handler
        { request := { path := "/hello/Patrick", method := "GET" },
          Params := ["Patrick"] } emptyWriter := by
  have h := (first_match_wins demoApp { path := "/hello/Patrick", method := "GET" } emptyWriter).1
    1 (by decide) (by decide)
    (fun j hj hlt => by
      have hj0 : j = 0 := by omega
      subst hj0
      exact (by decide :
        demoRoute0.Pattern.FindStringSubmatch "/hello/Patrick" = []))
  exact h.trans (by decide)

/-- Claim C2: a request matching no registered route invokes the default
handler with an empty capture sequence, and the `NewApp` default handler
answers status 404 with body `"Not found\n"`. -/
theorem default_route_on_no_match (a : App) (r : HttpRequest) (w : ResponseWriter)
    (hd : a.DefaultRoute = NewApp.DefaultRoute)
    (h : ∀ rt ∈ a.Routes, rt.Pattern.FindStringSubmatch r.path = []) :
    a.ServeHTTP r w = a.DefaultRoute { request := r, Params := [] } w ∧
    a.ServeHTTP r w = Response.Text w 404 "Not found" ∧
    (a.ServeHTTP r emptyWriter).status = some 404 ∧
    (a.ServeHTTP r emptyWriter).body = "Not found\n" := by
  have h1 := serveRoutes_no_match a.DefaultRoute r w a.Routes h
  have h2 := serveRoutes_no_match a.DefaultRoute r emptyWriter a.Routes h
  have h2' : a.ServeHTTP r emptyWriter = Response.Text emptyWriter 404 "Not found" :=
    h2.trans (by rw [hd]; rfl)
  refine ⟨h1, h1.trans (by rw [hd]; rfl), ?_, ?_⟩
  · rw [h2']; decide
  · rw [h2']; decide

/-- Witness for C2: an app built by `NewApp` plus one route, at the
unmatched path `/missing`. -/
theorem default_route_on_no_match_witness :
    (c2App.ServeHTTP { path := "/missing", method := "GET" } emptyWriter).status = some 404 ∧
    (c2App.ServeHTTP { path := "/missing", method := "GET" } emptyWriter).body = "Not found\n" := by
  have h := default_route_on_no_match c2App { path := "/missing", method := "GET" }
    emptyWriter rfl (by decide)
  exact ⟨h.2.2.1, h.2.2.2⟩

/-- Claim C3: the capture sequence delivered to a matched route's handler is
the submatch list minus the whole-match entry, with exactly one element per
capture group of the pattern (so none for a group-free pattern); and for a
pattern with a single trailing capture group the one capture equals the
substring that the group matched. -/
theorem capture_sequence (a : App) (r : HttpRequest) (w : ResponseWriter) :
    (∀ (i : Nat) (hi : i < a.Routes.length),
      0 < ((a.Routes.get ⟨i, hi⟩).Pattern.FindStringSubmatch r.path).length →
      (∀ (j : Nat) (hj : j < a.Routes.length), j < i →
        (a.Routes.get ⟨j, hj⟩).Pattern.FindStringSubmatch r.path = []) →
      a.ServeHTTP r w =
        (a.Routes.get ⟨i, hi⟩).Handler
          { request := r,
            Params := ((a.Routes.get ⟨i, hi⟩).Pattern.FindStringSubmatch r.path).drop 1 } w ∧
      (((a.Routes.get ⟨i, hi⟩).Pattern.FindStringSubmatch r.path).drop 1).length =
        countGroups (a.Routes.get ⟨i, hi⟩).Pattern.items)
    ∧ (∀ (b : Bool) (cls : Char → Bool) (lits name : List Char), name ≠ [] →
        (∀ c ∈ name, cls c = true) →
        Regexp.FindStringSubmatch
            ⟨b, lits.map RegexItem.lit ++ [RegexItem.plusGroup cls], true⟩
            (String.mk (lits ++ name)) =
          [String.mk (lits ++ name), String.mk name]) := by
  constructor
  · intro i hi hm hp
    exact ⟨serveRoutes_first a.DefaultRoute r w a.Routes i hi hm hp,
      FindStringSubmatch_drop_length _ _ hm⟩
  · exact fun b cls lits name hne hcls =>
      FindStringSubmatch_lits_plus b cls lits name hne hcls

/-- Witness for C3: the `/hello/([\w\._-]+)$` route of the demonstrated
table delivers exactly `countGroups` captures, and the single-group pattern
captures exactly the name substring. -/
theorem capture_sequence_witness :
    ((demoRoute1.Pattern.FindStringSubmatch "/hello/Patrick").drop 1).length =
      countGroups demoRoute1.Pattern.items ∧
    Regexp.FindStringSubmatch
        ⟨false, "/hello/".data.map RegexItem.lit ++ [RegexItem.plusGroup isWordChar], true⟩
        (String.mk ("/hello/".data ++ "Patrick".data)) =
      [String.mk ("/hello/".data ++ "Patrick".data), String.mk "Patrick".data] := by
  constructor
  · exact ((capture_sequence demoApp { path := "/hello/Patrick", method := "GET" }
      emptyWriter).1 1 (by decide) (by decide)
      (fun j hj hlt => by
        have hj0 : j = 0 := by omega
        subst hj0
        exact (by decide :
          demoRoute0.Pattern.FindStringSubmatch "/hello/Patrick" = []))).2
  · exact (capture_sequence demoApp { path := "/hello/Patrick", method := "GET" }
      emptyWriter).2 false isWordChar "/hello/".data "Patrick".data (by decide) (by decide)

/-- Claim C4: `Response.Text` sets the plain-text content type, then writes
the status line, then writes the body followed by exactly one newline, in
that order (the event trace extends by exactly those three calls), leaving
status, headers and body accordingly. -/
theorem text_response_order (w : ResponseWriter) (code : Nat) (body : String) :
    (Response.Text w code body).events =
      w.events ++ [WriteEvent.setHeader "Content-Type" "text/plain",
        WriteEvent.writeHeader code, WriteEvent.write (body ++ "\n")] ∧
    (Response.Text w code body).body = w.body ++ (body ++ "\n") ∧
    (Response.Text emptyWriter code body).body = body ++ "\n" ∧
    (Response.Text emptyWriter code body).status = some code ∧
    (Response.Text emptyWriter code body).headers = [("Content-Type", "text/plain")] := by
  refine ⟨?_, rfl, ?_, rfl, rfl⟩
  · simp [Response.Text, ResponseWriter.setHeader, ResponseWriter.writeHeader,
      ResponseWriter.write]
  · show ("" : String) ++ (body ++ "\n") = body ++ "\n"
    exact emptyStr_append (body ++ "\n")

/-- Claim C5: `App.Handle` succeeds exactly when the pattern compiles,
appends the compiled route at the end of the route list (preserving
registration order and the default route), and fails at registration time on
a malformed pattern.  Dispatch (`App.ServeHTTP`) is total and never
compiles patterns, so an invalid pattern can never fail at request time. -/
theorem handle_registration (a : App) (pattern : String) (handler : Handler) :
    ((a.Handle pattern handler).isSome = true ↔ (compile pattern).isSome = true) ∧
    (∀ re, compile pattern = some re →
      a.Handle pattern handler =
        some { Routes := a.Routes ++ [{ Pattern := re, Handler := handler }],
               DefaultRoute := a.DefaultRoute }) ∧
    (compile pattern = none → a.Handle pattern handler = none) := by
  cases h : compile pattern with
  | none =>
    refine ⟨?_, ?_, ?_⟩
    · simp [App.Handle, h]
    · intro re hre; exact Option.noConfusion hre
    · intro _; simp [App.Handle, h]
  | some re =>
    refine ⟨?_, ?_, ?_⟩
    · simp [App.Handle, h]
    · intro re' hre'
      injection hre' with hre''
      subst hre''
      simp [App.Handle, h]
    · intro hn; exact Option.noConfusion hn

/-- Witness for C5: the malformed pattern `(` is rejected at registration,
and the valid pattern `^/hello$` is accepted. -/
theorem handle_registration_witness :
    NewApp.Handle "(" helloWorldHandler = none ∧
    (NewApp.Handle "^/hello$" helloWorldHandler).isSome = true :=
  ⟨(handle_registration NewApp "(" helloWorldHandler).2.2 rfl,
   (handle_registration NewApp "^/hello$" helloWorldHandler).1.mpr rfl⟩

/-- Claim C6: dispatch is deterministic — serving the same request twice
against the router state left by the first dispatch yields an identical
response writer (status, headers and body all equal). -/
theorem dispatch_deterministic (a : App) (r₁ r₂ : HttpRequest) (w : ResponseWriter)
    (h : r₁ = r₂) :
    (App.ServeHTTPSt (App.ServeHTTPSt a r₁ w).1 r₂ w).2 = (App.ServeHTTPSt a r₁ w).2 := by
  subst h
  rw [ServeHTTPSt_fst]

/-- Witness for C6 at the demonstrated route table and path `/hello`. -/
theorem dispatch_deterministic_witness :
    (App.ServeHTTPSt
        (App.ServeHTTPSt demoApp { path := "/hello", method := "GET" } emptyWriter).1
        { path := "/hello", method := "GET" } emptyWriter).2 =
      (App.ServeHTTPSt demoApp { path := "/hello", method := "GET" } emptyWriter).2 :=
  dispatch_deterministic demoApp { path := "/hello", method := "GET" }
    { path := "/hello", method := "GET" } emptyWriter rfl

/-- Claim C7: in the `ServeMux` example, the request path `/hello/` is routed
to the prefix-style `/hello/` handler, prefix stripping yields the empty
name, and the response is status 200 with body `"Hello \n"` — the request is
not rejected. -/
theorem hello_trailing_slash :
    stringsReplace1 "/hello/" "/hello/" "" = "" ∧
    (muxBest "/hello/" serveMuxTable).map Prod.fst = some "/hello/" ∧
    (serveMux serveMuxTable { path := "/hello/", method := "GET" } emptyWriter).status =
      some 200 ∧
    (serveMux serveMuxTable { path := "/hello/", method := "GET" } emptyWriter).body =
      "Hello \n" := by
  refine ⟨by decide, by decide, by decide, by decide⟩

/-- Claim C8: dispatch never mutates the router state — after `ServeHTTP`
returns, `Routes` and `DefaultRoute` are unchanged. -/
theorem serve_preserves_router_state (a : App) (r : HttpRequest) (w : ResponseWriter) :
    (a.ServeHTTPSt r w).1.Routes = a.Routes ∧
    (a.ServeHTTPSt r w).1.DefaultRoute = a.DefaultRoute := by
  rw [ServeHTTPSt_fst]
  exact ⟨rfl, rfl⟩

/-- Claim C9: matching is unanchored substring search — `/x/hello/Patrick`
does not begin with `/hello/`, yet it matches the `/hello/([\w\._-]+)$`
route (and not the `^/hello$` route) with capture `Patrick`, and dispatch
answers 200 `"Hello Patrick\n"`. -/
theorem unanchored_substring_match :
    demoRoute0.Pattern.FindStringSubmatch "/x/hello/Patrick" = [] ∧
    demoRoute1.Pattern.FindStringSubmatch "/x/hello/Patrick" =
      ["/hello/Patrick", "Patrick"] ∧
    (demoApp.ServeHTTP { path := "/x/hello/Patrick", method := "GET" } emptyWriter).status =
      some 200 ∧
    (demoApp.ServeHTTP { path := "/x/hello/Patrick", method := "GET" } emptyWriter).body =
      "Hello Patrick\n" := by
  refine ⟨by decide, by decide, by decide, by decide⟩

/-- Claim C10: the custom-handler example answers every request, whatever
its path or method, with status 200, a plain-text content type, and body
`"Hello world\n"`. -/
theorem custom_handler_constant_response (r : HttpRequest) :
    (customHandlerServeHTTP r emptyWriter).status = some 200 ∧
    (customHandlerServeHTTP r emptyWriter).headers = [("Content-Type", "text/plain")] ∧
    (customHandlerServeHTTP r emptyWriter).body = "Hello world\n" :=
  ⟨rfl, rfl, rfl⟩
